import Mathlib

/-!
Shallow embedding of the causal-history engine of the ekotrace repository.

Machine integers are modelled as `Nat`; every u32 word of the compact log is
a `Nat` value below `2 ^ 32`, and the bit-level operations of the source
(`|`, `&`) are modelled with `Nat.lor` / `Nat.land`.  Rust operations that can
panic (slice `split_at` / range indexing with an out-of-range bound) are
modelled with `Option`, where `none` stands for the panic.
-/

namespace Ekotrace

/-! Identifier model, from src/ekotrace/src/id.rs. -/

namespace TracerId

/-- TracerId::MAX_ID = 0b0111_1111_1111_1111_1111_1111_1111_1111. -/
def MAX_ID : Nat := 2 ^ 31 - 1

/-- TracerId::new: `None` when `raw_id > MAX_ID`, otherwise
`NonZeroU32::new(raw_id).map(Self)`, which is `None` exactly when
`raw_id == 0`.  Total (never panics). -/
def new (raw_id : Nat) : Option Nat :=
  if raw_id > MAX_ID then none
  else if raw_id = 0 then none
  else some raw_id

end TracerId

namespace EventId

/-- EventId::MAX_INTERNAL_ID = 0b0111_1111_1111_1111_1111_1111_1111_1111. -/
def MAX_INTERNAL_ID : Nat := 2 ^ 31 - 1

/-- EventId::NUM_RESERVED_IDS. -/
def NUM_RESERVED_IDS : Nat := 256

/-- EventId::MAX_USER_ID = MAX_INTERNAL_ID - NUM_RESERVED_IDS. -/
def MAX_USER_ID : Nat := MAX_INTERNAL_ID - NUM_RESERVED_IDS

/-- EventId::new: `None` when `raw_id > MAX_USER_ID`, otherwise
`NonZeroU32::new(raw_id).map(Self)`, which is `None` exactly when
`raw_id == 0`.  Total (never panics). -/
def new (raw_id : Nat) : Option Nat :=
  if raw_id > MAX_USER_ID then none
  else if raw_id = 0 then none
  else some raw_id

end EventId

/-- LogicalClock from src/ekotrace: raw u32 fields `id` and `count`. -/
structure LogicalClock where
  id : Nat
  count : Nat
deriving DecidableEq, Repr

namespace CompactLogItem

/-- The discriminator bit 0b1000_0000_0000_0000_0000_0000_0000_0000. -/
def TOP_BIT : Nat := 2 ^ 31

/-- CompactLogItem::event — the raw event id word, top bit untouched. -/
def event (event_id : Nat) : Nat := event_id

/-- CompactLogItem::clock — first word is `clock.id | TOP_BIT`, second word is
the raw `clock.count`, unconditionally. -/
def clock (c : LogicalClock) : Nat × Nat :=
  (c.id ||| TOP_BIT, c.count)

/-- CompactLogItem::is_first_bit_set — `(self.0 & TOP_BIT) != 0`. -/
def is_first_bit_set (x : Nat) : Bool :=
  x &&& TOP_BIT != 0

/-- CompactLogItem::interpret_as_logical_clock_tracer_id — mask the top bit
off: `self.0 & 0b0111_1111_1111_1111_1111_1111_1111_1111`. -/
def interpret_as_logical_clock_tracer_id (x : Nat) : Nat :=
  x &&& (TOP_BIT - 1)

end CompactLogItem

/-- SplitSegment from src/ekotrace/src/compact_log.rs. -/
structure SplitSegment where
  clock_region : List Nat
  event_region : List Nat
  rest : List Nat
deriving DecidableEq, Repr

/-- SplitSegment::is_empty. -/
def SplitSegment.is_empty (s : SplitSegment) : Bool :=
  s.clock_region.isEmpty && s.event_region.isEmpty && s.rest.isEmpty

/-- The clock-region scan loop of split_next_segment: it walks the slice two
words at a time (Rust `items.iter().step_by(2)` always lands on the current
value of `num_clock_items`), accumulating `n + 2` for every top-bit-set word,
and stops early, without accumulating, on a clock word whose masked id equals
the local tracer id once at least one clock pair was accumulated (`n > 0`).
Returns the final `num_clock_items`. -/
def num_clock_items (local_tracer_id : Nat) : List Nat → Nat → Nat
  | [], n => n
  | [item], n =>
    if CompactLogItem.is_first_bit_set item then
      if 0 < n ∧ CompactLogItem.interpret_as_logical_clock_tracer_id item = local_tracer_id then
        n
      else
        n + 2
    else
      n
  | item :: _ :: back, n =>
    if CompactLogItem.is_first_bit_set item then
      if 0 < n ∧ CompactLogItem.interpret_as_logical_clock_tracer_id item = local_tracer_id then
        n
      else
        num_clock_items local_tracer_id back (n + 2)
    else
      n

/-- The event-region scan loop of split_next_segment: count leading words with
the top bit clear. -/
def num_event_items : List Nat → Nat
  | [] => 0
  | item :: back =>
    if CompactLogItem.is_first_bit_set item then 0
    else num_event_items back + 1

/-- split_next_segment from src/ekotrace/src/compact_log.rs.  `none` models the
panic of `items.split_at(num_clock_items)` when the computed clock offset
exceeds the slice length (possible when the slice ends in an unpaired
top-bit-set word).  In the source's early-return branch the word right after
the clock region has its top bit set, so the event scan below yields an empty
event region there, exactly as the source's literal `event_region: &[]`. -/
def split_next_segment (items : List Nat) (local_tracer_id : Nat) : Option SplitSegment :=
  if num_clock_items local_tracer_id items 0 ≤ items.length then
    some ⟨items.take (num_clock_items local_tracer_id items 0),
      (items.drop (num_clock_items local_tracer_id items 0)).take
        (num_event_items (items.drop (num_clock_items local_tracer_id items 0))),
      (items.drop (num_clock_items local_tracer_id items 0)).drop
        (num_event_items (items.drop (num_clock_items local_tracer_id items 0)))⟩
  else
    none

/-- The while loop of count_segments, with explicit fuel; `none` is reached
only on a panic of split_next_segment or on fuel exhaustion, and
`items.length + 1` fuel is always enough because each non-empty segment
consumes at least one word. -/
def count_segments_loop (local_tracer_id : Nat) : Nat → List Nat → Option Nat
  | 0, _ => none
  | fuel + 1, items =>
    match split_next_segment items local_tracer_id with
    | none => none
    | some seg =>
      if seg.is_empty then some 0
      else
        match count_segments_loop local_tracer_id fuel seg.rest with
        | none => none
        | some k => some (k + 1)

/-- count_segments from src/ekotrace/src/compact_log.rs: repeatedly split and
count until the split is fully empty. -/
def count_segments (items : List Nat) (local_tracer_id : Nat) : Option Nat :=
  count_segments_loop local_tracer_id (items.length + 1) items

/-- A well-formed compact log: a concatenation of single `event` words for
validly constructed EventIds and unsplit `clock` pairs. -/
inductive WellFormedLog : List Nat → Prop
  | nil : WellFormedLog []
  | event (event_id : Nat) (h : (EventId.new event_id).isSome) {l : List Nat} :
      WellFormedLog l → WellFormedLog (CompactLogItem.event event_id :: l)
  | clock (c : LogicalClock) {l : List Nat} :
      WellFormedLog l →
      WellFormedLog ((CompactLogItem.clock c).1 :: (CompactLogItem.clock c).2 :: l)

end Ekotrace

namespace Truce

/-! Earlier-generation identifier model, from src/truce/src/lib.rs. -/

namespace TracerId

/-- TracerId::MAX_RAW_ID = 0b0111_1111_1111_1111 (truce crate). -/
def MAX_RAW_ID : Nat := 2 ^ 15 - 1

/-- TracerId::new (truce crate): `None` when `raw_id > MAX_RAW_ID`, otherwise
`NonZeroU32::new(raw_id)`, which is `None` exactly when `raw_id == 0`. -/
def new (raw_id : Nat) : Option Nat :=
  if raw_id > MAX_RAW_ID then none
  else if raw_id = 0 then none
  else some raw_id

end TracerId

namespace EventId

/-- EventId::MAX_RAW_ID = 0b0111_1111_1111_1111 (truce crate). -/
def MAX_RAW_ID : Nat := 2 ^ 15 - 1

/-- EventId::new (truce crate). -/
def new (raw_id : Nat) : Option Nat :=
  if raw_id > MAX_RAW_ID then none
  else if raw_id = 0 then none
  else some raw_id

end EventId

end Truce

namespace ModalityProbe

/-! Snapshot wire codec, from src/src/wire/causal_snapshot.rs, and the merge
error model from src/src/error.rs. -/

/-- CausalSnapshotWireError from src/src/wire/causal_snapshot.rs. -/
inductive CausalSnapshotWireError where
  | MissingBytes : CausalSnapshotWireError
  | InvalidProbeId : Nat → CausalSnapshotWireError
deriving DecidableEq, Repr

/-- MergeError from src/src/error.rs. -/
inductive MergeError where
  | ExceededAvailableClocks : MergeError
  | InsufficientSourceSize : MergeError
  | ExternalHistorySemantics : MergeError
deriving DecidableEq, Repr

namespace ProbeId

/-- Modelled from the spec: the ProbeId type of the modality-probe crate is not
under src/; per the spec a ProbeId is a "nonzero value, 31 usable bits" whose
"top bit ... must never be set", and `ProbeId::new(v)` succeeds iff
`0 < v <= MAX_ID` — identical to the ekotrace TracerId::new in
src/ekotrace/src/id.rs. -/
def new (raw : Nat) : Option Nat :=
  if raw > 2 ^ 31 - 1 then none
  else if raw = 0 then none
  else some raw

end ProbeId

namespace Wire

/-- Rust range slicing `data[lo..hi]`; `none` models the panic when the range
is out of bounds. -/
def sliceRange (data : List Nat) (lo hi : Nat) : Option (List Nat) :=
  if lo ≤ hi ∧ hi ≤ data.length then some ((data.drop lo).take (hi - lo))
  else none

/-- Modelled from the spec: le_bytes::read_u32 (module not under src/) reads a
u32 from a 4-byte slice, little-endian. -/
def read_u32 (b : List Nat) : Nat :=
  b.getD 0 0 + 256 * b.getD 1 0 + 65536 * b.getD 2 0 + 16777216 * b.getD 3 0

/-- Modelled from the spec: le_bytes::read_u16 (module not under src/) reads a
u16 from a 2-byte slice, little-endian. -/
def read_u16 (b : List Nat) : Nat :=
  b.getD 0 0 + 256 * b.getD 1 0

/-- The little-endian byte decomposition of a u32 value. -/
def u32_le_bytes (v : Nat) : List Nat :=
  [v % 256, v / 256 % 256, v / 65536 % 256, v / 16777216 % 256]

/-- The little-endian byte decomposition of a u16 value. -/
def u16_le_bytes (v : Nat) : List Nat :=
  [v % 256, v / 256 % 256]

/-- Modelled from the spec: le_bytes::write_u32/write_u16 into the mutable
subrange `data[lo..lo+bytes.length]`, little-endian; `none` models the panic
when the range is out of bounds. -/
def writeRange (data : List Nat) (lo : Nat) (bytes : List Nat) : Option (List Nat) :=
  if lo + bytes.length ≤ data.length then
    some (data.take lo ++ bytes ++ data.drop (lo + bytes.length))
  else
    none

/-- field::REST.start, the required causal-snapshot buffer length. -/
def BUFFER_LEN : Nat := 12

/-- CausalSnapshot::check_len: MissingBytes iff the buffer is shorter than
field::REST.start = 12 bytes. -/
def check_len (buffer : List Nat) : Except CausalSnapshotWireError Unit :=
  if buffer.length < BUFFER_LEN then Except.error CausalSnapshotWireError.MissingBytes
  else Except.ok ()

/-- CausalSnapshot::new: new_unchecked followed by check_len. -/
def new (buffer : List Nat) : Except CausalSnapshotWireError (List Nat) :=
  match check_len buffer with
  | Except.error e => Except.error e
  | Except.ok _ => Except.ok buffer

/-- CausalSnapshot::probe_id: reads `data[field::PROBE_ID]` (bytes 0..4, the
outer `Option` models the panic of that indexing) and then validates with
ProbeId::new, failing with InvalidProbeId on the raw value.  There is no
buffer-length check in this accessor. -/
def probe_id (buffer : List Nat) : Option (Except CausalSnapshotWireError Nat) :=
  (sliceRange buffer 0 4).map (fun s =>
    match ProbeId.new (read_u32 s) with
    | some id => Except.ok id
    | none => Except.error (CausalSnapshotWireError.InvalidProbeId (read_u32 s)))

/-- CausalSnapshot::count: reads `data[field::COUNT]` (bytes 4..8); the
`Option` models the panic of that indexing.  No length check, no error
return. -/
def count (buffer : List Nat) : Option Nat :=
  (sliceRange buffer 4 8).map read_u32

/-- CausalSnapshot::reserved_0: reads `data[field::RESERVED_0]` (bytes
8..10). -/
def reserved_0 (buffer : List Nat) : Option Nat :=
  (sliceRange buffer 8 10).map read_u16

/-- CausalSnapshot::reserved_1: reads `data[field::RESERVED_1]` (bytes
10..12). -/
def reserved_1 (buffer : List Nat) : Option Nat :=
  (sliceRange buffer 10 12).map read_u16

/-- CausalSnapshot::set_probe_id: write_u32 into bytes 0..4. -/
def set_probe_id (buffer : List Nat) (value : Nat) : Option (List Nat) :=
  writeRange buffer 0 (u32_le_bytes value)

/-- CausalSnapshot::set_count: write_u32 into bytes 4..8. -/
def set_count (buffer : List Nat) (value : Nat) : Option (List Nat) :=
  writeRange buffer 4 (u32_le_bytes value)

/-- CausalSnapshot::set_reserved_0: write_u16 into bytes 8..10. -/
def set_reserved_0 (buffer : List Nat) (value : Nat) : Option (List Nat) :=
  writeRange buffer 8 (u16_le_bytes value)

/-- CausalSnapshot::set_reserved_1: write_u16 into bytes 10..12. -/
def set_reserved_1 (buffer : List Nat) (value : Nat) : Option (List Nat) :=
  writeRange buffer 10 (u16_le_bytes value)

end Wire

namespace Merge

/-- An external causal snapshot as consumed by merge: a bucket array together
with the declared number of used buckets (truce CausalSnapshot has
`buckets: [LogicalClockBucket; 256]` and `buckets_len: u8`). -/
structure Snapshot where
  buckets : List Ekotrace.LogicalClock
  buckets_len : Nat
deriving DecidableEq, Repr

/-- Probe-id validity test used by merge semantics checks (spec: nonzero, top
bit clear). -/
def valid_probe_id (id : Nat) : Bool :=
  (ProbeId.new id).isSome

/-- Modelled from the spec: the per-entry step of History::merge (the History
type is not under src/): a tracked id is updated to the max of tracked and
incoming counts, an untracked id is inserted if capacity remains, and
otherwise ExceededAvailableClocks is signalled. -/
def merge_bucket (capacity : Nat) (table : List Ekotrace.LogicalClock)
    (b : Ekotrace.LogicalClock) : Except MergeError (List Ekotrace.LogicalClock) :=
  if table.any (fun t => t.id == b.id) then
    Except.ok (table.map (fun t => if t.id == b.id then ⟨t.id, max t.count b.count⟩ else t))
  else if table.length < capacity then
    Except.ok (table ++ [b])
  else
    Except.error MergeError.ExceededAvailableClocks

/-- Modelled from the spec: History::merge (not under src/).  A truncated
snapshot (fewer buckets than declared) signals InsufficientSourceSize; an
entry with an invalid probe id signals ExternalHistorySemantics; otherwise the
entries are folded with merge_bucket, and per the spec's all-or-nothing
commit, any failure leaves the table as it was.  Returns (table after the
call, error). -/
def merge (capacity : Nat) (table : List Ekotrace.LogicalClock) (snap : Snapshot) :
    List Ekotrace.LogicalClock × Option MergeError :=
  if snap.buckets.length < snap.buckets_len then
    (table, some MergeError.InsufficientSourceSize)
  else if (snap.buckets.take snap.buckets_len).any (fun b => !(valid_probe_id b.id)) then
    (table, some MergeError.ExternalHistorySemantics)
  else
    match (snap.buckets.take snap.buckets_len).foldlM (merge_bucket capacity) table with
    | Except.ok t2 => (t2, none)
    | Except.error e => (table, some e)

end Merge

end ModalityProbe

namespace Ekotrace

/-! Helper lemmas about the discriminator bit. -/

theorem is_first_bit_set_of_lt {x : Nat} (h : x < 2 ^ 31) :
    CompactLogItem.is_first_bit_set x = false := by
  have hb : x.testBit 31 = false := Nat.testBit_lt_two_pow h
  unfold CompactLogItem.is_first_bit_set CompactLogItem.TOP_BIT
  rw [Nat.and_two_pow, hb]
  simp

theorem is_first_bit_set_lor (x : Nat) :
    CompactLogItem.is_first_bit_set (x ||| 2 ^ 31) = true := by
  have hb : (x ||| 2 ^ 31).testBit 31 = true := by
    simp only [Nat.testBit_lor, Nat.testBit_two_pow_self, Bool.or_true]
  unfold CompactLogItem.is_first_bit_set CompactLogItem.TOP_BIT
  rw [Nat.and_two_pow, hb]
  simp

theorem interp_lor {x : Nat} (h : x < 2 ^ 31) :
    CompactLogItem.interpret_as_logical_clock_tracer_id (x ||| 2 ^ 31) = x := by
  unfold CompactLogItem.interpret_as_logical_clock_tracer_id CompactLogItem.TOP_BIT
  apply Nat.eq_of_testBit_eq
  intro i
  rw [Nat.testBit_and, Nat.testBit_lor, Nat.testBit_two_pow_sub_one, Nat.testBit_two_pow]
  by_cases hi : i < 31
  · have h31 : (31 = i) = False := by simp; omega
    simp [hi, h31]
  · have hx : x.testBit i = false := by
      apply Nat.testBit_lt_two_pow
      calc x < 2 ^ 31 := h
        _ ≤ 2 ^ i := Nat.pow_le_pow_right (by norm_num) (by omega)
    simp [hi, hx]

theorem eventId_new_isSome_iff (v : Nat) :
    (EventId.new v).isSome ↔ 0 < v ∧ v ≤ EventId.MAX_USER_ID := by
  unfold EventId.new
  split
  · simp; omega
  · split <;> simp <;> omega

theorem tracerId_new_isSome_iff (v : Nat) :
    (TracerId.new v).isSome ↔ 0 < v ∧ v ≤ TracerId.MAX_ID := by
  unfold TracerId.new
  split
  · simp; omega
  · split <;> simp <;> omega

theorem eventId_new_lt {v w : Nat} (h : EventId.new v = some w) : w < 2 ^ 31 := by
  unfold EventId.new at h
  split at h
  · exact absurd h (by simp)
  · split at h
    · exact absurd h (by simp)
    · cases h
      unfold EventId.MAX_USER_ID EventId.MAX_INTERNAL_ID EventId.NUM_RESERVED_IDS at *
      omega

theorem tracerId_new_lt {v w : Nat} (h : TracerId.new v = some w) : w < 2 ^ 31 := by
  unfold TracerId.new at h
  split at h
  · exact absurd h (by simp)
  · split at h
    · exact absurd h (by simp)
    · cases h
      unfold TracerId.MAX_ID at *
      omega

theorem tracerId_isSome_lt {v : Nat} (h : (TracerId.new v).isSome) : v < 2 ^ 31 := by
  have := (tracerId_new_isSome_iff v).mp h
  unfold TracerId.MAX_ID at this
  omega

theorem event_word_clear {e : Nat} (h : (EventId.new e).isSome) :
    CompactLogItem.is_first_bit_set (CompactLogItem.event e) = false := by
  obtain ⟨hpos, hle⟩ := (eventId_new_isSome_iff e).mp h
  have : e < 2 ^ 31 := by
    unfold EventId.MAX_USER_ID EventId.MAX_INTERNAL_ID EventId.NUM_RESERVED_IDS at hle
    omega
  exact is_first_bit_set_of_lt this

theorem clock_word_set (c : LogicalClock) :
    CompactLogItem.is_first_bit_set (CompactLogItem.clock c).1 = true := by
  show CompactLogItem.is_first_bit_set (c.id ||| CompactLogItem.TOP_BIT) = true
  exact is_first_bit_set_lor c.id

/-- Claim C2: event items keep the discriminator bit clear; the first clock
item carries the discriminator bit with the probe id in the low 31 bits; the
second clock item is the raw count, unconditionally. -/
theorem C2_compact_item_encoding :
    (∀ id_raw : Nat, (EventId.new id_raw).isSome →
      CompactLogItem.is_first_bit_set (CompactLogItem.event id_raw) = false) ∧
    (∀ c : LogicalClock, (TracerId.new c.id).isSome →
      CompactLogItem.is_first_bit_set (CompactLogItem.clock c).1 = true ∧
      CompactLogItem.interpret_as_logical_clock_tracer_id (CompactLogItem.clock c).1 = c.id) ∧
    (∀ c : LogicalClock, (CompactLogItem.clock c).2 = c.count) := by
  refine ⟨fun id_raw h => event_word_clear h, ?_, fun c => rfl⟩
  intro c h
  have hlt : c.id < 2 ^ 31 := tracerId_isSome_lt h
  refine ⟨clock_word_set c, ?_⟩
  show CompactLogItem.interpret_as_logical_clock_tracer_id (c.id ||| CompactLogItem.TOP_BIT) = c.id
  exact interp_lor hlt

/-- Claim C2 witness: the encoding guarantees evaluated at EventId 5 and at a
logical clock whose count has its own top bit set. -/
theorem C2_compact_item_encoding_witness :
    CompactLogItem.is_first_bit_set (CompactLogItem.event 5) = false ∧
    CompactLogItem.is_first_bit_set (CompactLogItem.clock ⟨314, 2 ^ 31 + 7⟩).1 = true ∧
    CompactLogItem.interpret_as_logical_clock_tracer_id
      (CompactLogItem.clock ⟨314, 2 ^ 31 + 7⟩).1 = 314 ∧
    (CompactLogItem.clock ⟨314, 2 ^ 31 + 7⟩).2 = 2 ^ 31 + 7 := by
  refine ⟨C2_compact_item_encoding.1 5 (by decide), ?_, ?_,
    C2_compact_item_encoding.2.2 ⟨314, 2 ^ 31 + 7⟩⟩
  · exact (C2_compact_item_encoding.2.1 ⟨314, 2 ^ 31 + 7⟩ (by decide)).1
  · exact (C2_compact_item_encoding.2.1 ⟨314, 2 ^ 31 + 7⟩ (by decide)).2

/-- Claim C6: masking the discriminator bit off the first word of a clock pair
recovers the original probe id, for every valid probe id. -/
theorem C6_clock_id_roundtrip (c : LogicalClock) (h : (TracerId.new c.id).isSome) :
    CompactLogItem.interpret_as_logical_clock_tracer_id (CompactLogItem.clock c).1 = c.id := by
  have hlt : c.id < 2 ^ 31 := tracerId_isSome_lt h
  show CompactLogItem.interpret_as_logical_clock_tracer_id (c.id ||| CompactLogItem.TOP_BIT) = c.id
  exact interp_lor hlt

/-- Claim C6 witness: recovery of probe id 99 from the clock pair (99, 5). -/
theorem C6_clock_id_roundtrip_witness :
    CompactLogItem.interpret_as_logical_clock_tracer_id (CompactLogItem.clock ⟨99, 5⟩).1 = 99 :=
  C6_clock_id_roundtrip ⟨99, 5⟩ (by decide)

end Ekotrace

/-- Claim C4: for every unsigned 32-bit value, EventId::new succeeds iff
0 < v <= MAX_USER_ID and TracerId::new succeeds iff 0 < v <= MAX_ID, with the
top bit of any constructed id clear; the truce-crate constructors satisfy the
same shape with their own (15-bit) maxima.  The constructors are total
functions of the model (never panic). -/
theorem C4_id_constructors (v : Nat) (hv : v < 2 ^ 32) :
    ((Ekotrace.EventId.new v).isSome ↔ 0 < v ∧ v ≤ Ekotrace.EventId.MAX_USER_ID) ∧
    ((Ekotrace.TracerId.new v).isSome ↔ 0 < v ∧ v ≤ Ekotrace.TracerId.MAX_ID) ∧
    (∀ w, Ekotrace.EventId.new v = some w →
      Ekotrace.CompactLogItem.is_first_bit_set w = false) ∧
    (∀ w, Ekotrace.TracerId.new v = some w →
      Ekotrace.CompactLogItem.is_first_bit_set w = false) ∧
    ((Truce.EventId.new v).isSome ↔ 0 < v ∧ v ≤ Truce.EventId.MAX_RAW_ID) ∧
    ((Truce.TracerId.new v).isSome ↔ 0 < v ∧ v ≤ Truce.TracerId.MAX_RAW_ID) := by
  refine ⟨Ekotrace.eventId_new_isSome_iff v, Ekotrace.tracerId_new_isSome_iff v,
    fun w hw => Ekotrace.is_first_bit_set_of_lt (Ekotrace.eventId_new_lt hw),
    fun w hw => Ekotrace.is_first_bit_set_of_lt (Ekotrace.tracerId_new_lt hw), ?_, ?_⟩
  · unfold Truce.EventId.new
    split
    · simp; omega
    · split <;> simp <;> omega
  · unfold Truce.TracerId.new
    split
    · simp; omega
    · split <;> simp <;> omega

/-- Claim C4 witness: the constructor characterizations evaluated at 5. -/
theorem C4_id_constructors_witness :
    (Ekotrace.EventId.new 5).isSome ∧ (Ekotrace.TracerId.new 5).isSome ∧
    (Truce.EventId.new 5).isSome ∧ (Truce.TracerId.new 5).isSome := by
  have h := C4_id_constructors 5 (by decide)
  exact ⟨h.1.mpr (by decide), h.2.1.mpr (by decide),
    h.2.2.2.2.1.mpr (by decide), h.2.2.2.2.2.mpr (by decide)⟩

namespace Ekotrace

/-! Properties of the clock-region and event-region scan loops. -/

theorem num_clock_items_ge (lid : Nat) :
    ∀ (l : List Nat) (n : Nat), n ≤ num_clock_items lid l n
  | [], _ => Nat.le_refl _
  | [item], n => by
    by_cases hb : CompactLogItem.is_first_bit_set item = true
    · by_cases he : 0 < n ∧ CompactLogItem.interpret_as_logical_clock_tracer_id item = lid
      · simp [num_clock_items, hb, he]
      · simp [num_clock_items, hb, he]
    · simp [num_clock_items, hb]
  | item :: b :: back, n => by
    by_cases hb : CompactLogItem.is_first_bit_set item = true
    · by_cases he : 0 < n ∧ CompactLogItem.interpret_as_logical_clock_tracer_id item = lid
      · simp [num_clock_items, hb, he]
      · have h2 := num_clock_items_ge lid back (n + 2)
        simp only [num_clock_items, hb, if_true, he, if_false]
        omega
    · simp [num_clock_items, hb]

theorem num_clock_items_clear (lid : Nat) (a : Nat) (t : List Nat) (n : Nat)
    (h : CompactLogItem.is_first_bit_set a = false) :
    num_clock_items lid (a :: t) n = n := by
  cases t <;> simp [num_clock_items, h]

theorem num_clock_items_set_two (lid : Nat) (a : Nat) (t : List Nat)
    (h : CompactLogItem.is_first_bit_set a = true) :
    2 ≤ num_clock_items lid (a :: t) 0 := by
  match t with
  | [] => simp [num_clock_items, h]
  | b :: back =>
    have heq : num_clock_items lid (a :: b :: back) 0 = num_clock_items lid back (0 + 2) := by
      simp [num_clock_items, h]
    rw [heq]
    exact Nat.le_trans (by omega) (num_clock_items_ge lid back (0 + 2))

theorem num_clock_items_spec (lid : Nat) :
    ∀ (l : List Nat) (n : Nat),
      ∃ k, num_clock_items lid l n = n + k ∧ k ≤ l.length + 1 ∧ k % 2 = 0 ∧
        ∀ i, i < k → i % 2 = 0 →
          ∃ hi : i < l.length, CompactLogItem.is_first_bit_set (l.get ⟨i, hi⟩) = true
  | [], n => ⟨0, rfl, by simp, by simp, fun i hik _ => absurd hik (by omega)⟩
  | [item], n => by
    by_cases hb : CompactLogItem.is_first_bit_set item = true
    · by_cases he : 0 < n ∧ CompactLogItem.interpret_as_logical_clock_tracer_id item = lid
      · refine ⟨0, ?_, by simp, by simp, fun i hik _ => absurd hik (by omega)⟩
        simp [num_clock_items, hb, he]
      · refine ⟨2, ?_, by simp, by simp, ?_⟩
        · simp [num_clock_items, hb, he]
        · intro i hik hie
          have hz : i = 0 := by omega
          subst hz
          exact ⟨by simp, hb⟩
    · refine ⟨0, ?_, by simp, by simp, fun i hik _ => absurd hik (by omega)⟩
      simp [num_clock_items, hb]
  | item :: b :: back, n => by
    by_cases hb : CompactLogItem.is_first_bit_set item = true
    · by_cases he : 0 < n ∧ CompactLogItem.interpret_as_logical_clock_tracer_id item = lid
      · refine ⟨0, ?_, by simp, by simp, fun i hik _ => absurd hik (by omega)⟩
        simp [num_clock_items, hb, he]
      · obtain ⟨k, hk1, hk2, hk3, hk4⟩ := num_clock_items_spec lid back (n + 2)
        refine ⟨k + 2, ?_, ?_, by omega, ?_⟩
        · have heq : num_clock_items lid (item :: b :: back) n =
              num_clock_items lid back (n + 2) := by
            simp [num_clock_items, hb, he]
          rw [heq, hk1]
          omega
        · simp
          omega
        · intro i hik hie
          match i with
          | 0 => exact ⟨by simp, hb⟩
          | 1 => exact absurd hie (by omega)
          | (j + 2) =>
            obtain ⟨hj, hbit⟩ := hk4 j (by omega) (by omega)
            exact ⟨by simp; omega, hbit⟩
    · refine ⟨0, ?_, by simp, by simp, fun i hik _ => absurd hik (by omega)⟩
      simp [num_clock_items, hb]

theorem num_event_items_le : ∀ (l : List Nat), num_event_items l ≤ l.length
  | [] => Nat.le_refl _
  | item :: back => by
    by_cases hb : CompactLogItem.is_first_bit_set item = true
    · simp [num_event_items, hb]
    · have ih := num_event_items_le back
      have heq : num_event_items (item :: back) = num_event_items back + 1 := by
        simp [num_event_items, hb]
      rw [heq, List.length_cons]
      omega

theorem num_event_items_take_clear :
    ∀ (l : List Nat), ∀ w ∈ l.take (num_event_items l),
      CompactLogItem.is_first_bit_set w = false
  | [] => by simp
  | item :: back => by
    by_cases hb : CompactLogItem.is_first_bit_set item = true
    · simp [num_event_items, hb]
    · intro w hw
      rw [show num_event_items (item :: back) = num_event_items back + 1 by
        simp [num_event_items, hb]] at hw
      rw [List.take_succ_cons] at hw
      rcases List.mem_cons.mp hw with h1 | h2
      · subst h1
        simpa using hb
      · exact num_event_items_take_clear back w h2

theorem num_event_items_all_clear :
    ∀ (l : List Nat), (∀ w ∈ l, CompactLogItem.is_first_bit_set w = false) →
      num_event_items l = l.length
  | [], _ => rfl
  | item :: back, h => by
    have hb : CompactLogItem.is_first_bit_set item = false := h item (by simp)
    have ih := num_event_items_all_clear back (fun w hw => h w (by simp [hw]))
    simp [num_event_items, hb, ih]

end Ekotrace

namespace Ekotrace

theorem split_rest_lt {items : List Nat} {lid : Nat} {seg : SplitSegment}
    (h : split_next_segment items lid = some seg) (hne : seg.is_empty = false) :
    seg.rest.length < items.length := by
  unfold split_next_segment at h
  split at h
  case isFalse => exact absurd h (by simp)
  case isTrue hle =>
    injection h with h
    subst h
    cases items with
    | nil =>
      simp [SplitSegment.is_empty, num_clock_items, num_event_items] at hne
    | cons a t =>
      by_cases hb : CompactLogItem.is_first_bit_set a = true
      · have h2 : 2 ≤ num_clock_items lid (a :: t) 0 := num_clock_items_set_two lid a t hb
        simp only [SplitSegment.is_empty] at hne
        simp only [List.length_drop, List.length_cons]
        simp only [List.length_cons] at hle
        omega
      · have hbf : CompactLogItem.is_first_bit_set a = false := by simpa using hb
        have h0 : num_clock_items lid (a :: t) 0 = 0 := num_clock_items_clear lid a t 0 hbf
        have hm1 : num_event_items (a :: t) = num_event_items t + 1 := by
          simp [num_event_items, hbf]
        simp only [h0, List.drop_zero, List.length_drop, List.length_cons, hm1]
        omega

/-- Claim C9 (amended): whenever split_next_segment returns (does not panic),
the three regions concatenate to exactly the input, the clock region has even
length with the discriminator bit set at every even offset, and every event
region word has the discriminator bit clear. -/
theorem C9_split_partition (items : List Nat) (lid : Nat) (seg : SplitSegment)
    (h : split_next_segment items lid = some seg) :
    seg.clock_region ++ seg.event_region ++ seg.rest = items ∧
    seg.clock_region.length % 2 = 0 ∧
    (∀ i (hi : i < seg.clock_region.length), i % 2 = 0 →
      CompactLogItem.is_first_bit_set (seg.clock_region.get ⟨i, hi⟩) = true) ∧
    (∀ w ∈ seg.event_region, CompactLogItem.is_first_bit_set w = false) := by
  unfold split_next_segment at h
  split at h
  case isFalse => exact absurd h (by simp)
  case isTrue hle =>
    injection h with h
    subst h
    dsimp only
    obtain ⟨k, hk1, hk2, hk3, hk4⟩ := num_clock_items_spec lid items 0
    have hkn : num_clock_items lid items 0 = k := by omega
    have hlen : (items.take (num_clock_items lid items 0)).length =
        num_clock_items lid items 0 := by
      rw [List.length_take]
      omega
    refine ⟨?_, ?_, ?_, ?_⟩
    · rw [List.append_assoc, List.take_append_drop, List.take_append_drop]
    · rw [hlen, hkn]
      exact hk3
    · intro i hi hie
      rw [hlen, hkn] at hi
      obtain ⟨hii, hbit⟩ := hk4 i hi hie
      have : (items.take (num_clock_items lid items 0)).get
          ⟨i, by rw [hlen, hkn]; exact hi⟩ = items.get ⟨i, hii⟩ := by
        simp [List.get_eq_getElem, List.getElem_take]
      simp only [this]
      exact hbit
    · exact fun w hw => num_event_items_take_clear _ w hw

/-- Claim C9 counterexample: on the slice holding a single unpaired
top-bit-set clock word, split_next_segment does not return three slices at
all — the internal split offset (2) exceeds the slice length (1) and the
source panics, which the model records as `none`. -/
theorem C9_split_partition_counterexample :
    split_next_segment [2 ^ 31] 314 = none := by decide

/-- Claim C9 witness: the partition properties evaluated on the log
[clock(7, 9), event(3)] with local probe id 314. -/
theorem C9_split_partition_witness :
    ([(CompactLogItem.clock ⟨7, 9⟩).1, (CompactLogItem.clock ⟨7, 9⟩).2] ++
      [CompactLogItem.event 3] ++ ([] : List Nat)) =
      [(CompactLogItem.clock ⟨7, 9⟩).1, (CompactLogItem.clock ⟨7, 9⟩).2,
        CompactLogItem.event 3] ∧
    CompactLogItem.is_first_bit_set
      (([(CompactLogItem.clock ⟨7, 9⟩).1, (CompactLogItem.clock ⟨7, 9⟩).2] : List Nat).get
        ⟨0, by decide⟩) = true := by
  have h := C9_split_partition
    [(CompactLogItem.clock ⟨7, 9⟩).1, (CompactLogItem.clock ⟨7, 9⟩).2, CompactLogItem.event 3]
    314
    ⟨[(CompactLogItem.clock ⟨7, 9⟩).1, (CompactLogItem.clock ⟨7, 9⟩).2],
      [CompactLogItem.event 3], []⟩
    (by decide)
  exact ⟨h.1, h.2.2.1 0 (by decide) (by decide)⟩

end Ekotrace

namespace Ekotrace

theorem wf_clock_scan (lid : Nat) {items : List Nat} (hw : WellFormedLog items) :
    ∀ n : Nat, ∃ k, num_clock_items lid items n = n + k ∧ k ≤ items.length ∧
      WellFormedLog (items.drop k) := by
  induction hw with
  | nil => exact fun n => ⟨0, rfl, by simp, WellFormedLog.nil⟩
  | @event e he l hwl ih =>
    intro n
    have hb : CompactLogItem.is_first_bit_set (CompactLogItem.event e) = false :=
      event_word_clear he
    exact ⟨0, num_clock_items_clear lid _ _ n hb, by simp,
      by simpa using WellFormedLog.event e he hwl⟩
  | @clock c l hwl ih =>
    intro n
    have hb : CompactLogItem.is_first_bit_set (CompactLogItem.clock c).1 = true :=
      clock_word_set c
    by_cases he : 0 < n ∧
        CompactLogItem.interpret_as_logical_clock_tracer_id (CompactLogItem.clock c).1 = lid
    · refine ⟨0, ?_, by simp, by simpa using WellFormedLog.clock c hwl⟩
      simp [num_clock_items, hb, he]
    · obtain ⟨k, hk1, hk2, hk3⟩ := ih (n + 2)
      refine ⟨k + 2, ?_, by simp; omega, ?_⟩
      · have heq : num_clock_items lid
            ((CompactLogItem.clock c).1 :: (CompactLogItem.clock c).2 :: l) n =
            num_clock_items lid l (n + 2) := by
          simp [num_clock_items, hb, he]
        rw [heq, hk1]
        omega
      · have heq : ((CompactLogItem.clock c).1 :: (CompactLogItem.clock c).2 :: l).drop
            (k + 2) = l.drop k := rfl
        rw [heq]
        exact hk3

theorem wf_event_scan : ∀ {items : List Nat}, WellFormedLog items →
    WellFormedLog (items.drop (num_event_items items)) := by
  intro items hw
  induction hw with
  | nil => exact WellFormedLog.nil
  | @event e he l hwl ih =>
    have hb : CompactLogItem.is_first_bit_set (CompactLogItem.event e) = false :=
      event_word_clear he
    have heq : num_event_items (CompactLogItem.event e :: l) = num_event_items l + 1 := by
      simp [num_event_items, hb]
    rw [heq]
    simpa using ih
  | @clock c l hwl ih =>
    have hb : CompactLogItem.is_first_bit_set (CompactLogItem.clock c).1 = true :=
      clock_word_set c
    have heq : num_event_items
        ((CompactLogItem.clock c).1 :: (CompactLogItem.clock c).2 :: l) = 0 := by
      simp [num_event_items, hb]
    rw [heq]
    exact WellFormedLog.clock c hwl

theorem wf_split (lid : Nat) {items : List Nat} (hw : WellFormedLog items) :
    ∃ seg, split_next_segment items lid = some seg ∧ WellFormedLog seg.rest := by
  obtain ⟨k, hk1, hk2, hk3⟩ := wf_clock_scan lid hw 0
  have hn : num_clock_items lid items 0 = k := by omega
  have hle : num_clock_items lid items 0 ≤ items.length := by omega
  refine ⟨⟨items.take (num_clock_items lid items 0),
      (items.drop (num_clock_items lid items 0)).take
        (num_event_items (items.drop (num_clock_items lid items 0))),
      (items.drop (num_clock_items lid items 0)).drop
        (num_event_items (items.drop (num_clock_items lid items 0)))⟩, ?_, ?_⟩
  · unfold split_next_segment
    rw [if_pos hle]
  · dsimp only
    rw [hn]
    exact wf_event_scan hk3

theorem wf_count_loop (lid : Nat) :
    ∀ (fuel : Nat) (items : List Nat), WellFormedLog items → items.length < fuel →
      (count_segments_loop lid fuel items).isSome
  | 0, items, _, hlen => absurd hlen (by omega)
  | fuel + 1, items, hw, hlen => by
    obtain ⟨seg, hseg, hwrest⟩ := wf_split lid hw
    simp only [count_segments_loop, hseg]
    by_cases hemp : seg.is_empty = true
    · simp [hemp]
    · have hlt : seg.rest.length < items.length := split_rest_lt hseg (by simpa using hemp)
      have hrec := wf_count_loop lid fuel seg.rest hwrest (by omega)
      obtain ⟨v, hv⟩ := Option.isSome_iff_exists.mp hrec
      simp [hemp, hv]

/-- Claim C10: split_next_segment and count_segments are panic-free on every
well-formed log (one built from single event words and unsplit clock pairs),
while a malformed slice ending in an unpaired top-bit-set clock word drives
the internal split offset past the slice length (a panic, modelled `none`). -/
theorem C10_split_totality :
    (∀ (lid : Nat) (items : List Nat), WellFormedLog items →
      (split_next_segment items lid).isSome ∧ (count_segments items lid).isSome) ∧
    split_next_segment [(CompactLogItem.clock ⟨99, 5⟩).1, (CompactLogItem.clock ⟨99, 5⟩).2,
      2 ^ 31 + 7] 314 = none := by
  constructor
  · intro lid items hw
    obtain ⟨seg, hseg, _⟩ := wf_split lid hw
    constructor
    · simp [hseg]
    · exact wf_count_loop lid (items.length + 1) items hw (by omega)
  · decide

/-- Claim C10 witness: panic-freedom evaluated on the well-formed log
[event(1)] with local probe id 314. -/
theorem C10_split_totality_witness :
    (split_next_segment [CompactLogItem.event 1] 314).isSome ∧
    (count_segments [CompactLogItem.event 1] 314).isSome :=
  C10_split_totality.1 314 [CompactLogItem.event 1]
    (WellFormedLog.event 1 (by decide) WellFormedLog.nil)

end Ekotrace

namespace Ekotrace

/-- Claim C8: the empty log has zero segments; a single event word is one
segment; any non-empty run consisting only of event words is one segment. -/
theorem C8_event_run_counts :
    count_segments [] 314 = some 0 ∧
    count_segments [CompactLogItem.event 1] 314 = some 1 ∧
    count_segments [CompactLogItem.event 1, CompactLogItem.event 2,
      CompactLogItem.event 1] 314 = some 1 ∧
    ∀ (lid : Nat) (items : List Nat), items ≠ [] →
      (∀ w ∈ items, CompactLogItem.is_first_bit_set w = false) →
      count_segments items lid = some 1 := by
  refine ⟨by decide, by decide, by decide, ?_⟩
  intro lid items hne hall
  cases items with
  | nil => exact absurd rfl hne
  | cons a t =>
    have hb : CompactLogItem.is_first_bit_set a = false := hall a (by simp)
    have hn : num_clock_items lid (a :: t) 0 = 0 := num_clock_items_clear lid a t 0 hb
    have hm : num_event_items (a :: t) = (a :: t).length := num_event_items_all_clear _ hall
    have hsplit : split_next_segment (a :: t) lid = some ⟨[], a :: t, []⟩ := by
      unfold split_next_segment
      rw [if_pos (by rw [hn]; omega)]
      rw [hn]
      simp [hm]
    unfold count_segments
    simp only [count_segments_loop, hsplit]
    have hemp : SplitSegment.is_empty ⟨[], a :: t, []⟩ = false := by
      simp [SplitSegment.is_empty]
    simp [hemp, count_segments_loop, split_next_segment, num_clock_items,
      num_event_items, SplitSegment.is_empty]

/-- Claim C8 witness: a three-event run counts as one segment. -/
theorem C8_event_run_counts_witness :
    count_segments [CompactLogItem.event 4, CompactLogItem.event 9,
      CompactLogItem.event 4] 271 = some 1 :=
  C8_event_run_counts.2.2.2 271
    [CompactLogItem.event 4, CompactLogItem.event 9, CompactLogItem.event 4]
    (by decide) (by decide)

/-- Claim C1: two adjacent clock-only segments, the second led by the local
probe id 314, count as 2 segments; inserting the unrelated clock pair
clock(99, 2) between or after does not change the count; and the forced
boundary is visible in the split itself: the first split of the two-pair log
ends the clock region right before the local-id pair with an empty event
region. -/
theorem C1_adjacent_clock_segment_counts :
    count_segments [(CompactLogItem.clock ⟨314, 1⟩).1, (CompactLogItem.clock ⟨314, 1⟩).2,
      (CompactLogItem.clock ⟨314, 2⟩).1, (CompactLogItem.clock ⟨314, 2⟩).2] 314 = some 2 ∧
    count_segments [(CompactLogItem.clock ⟨314, 1⟩).1, (CompactLogItem.clock ⟨314, 1⟩).2,
      (CompactLogItem.clock ⟨99, 2⟩).1, (CompactLogItem.clock ⟨99, 2⟩).2,
      (CompactLogItem.clock ⟨314, 2⟩).1, (CompactLogItem.clock ⟨314, 2⟩).2] 314 = some 2 ∧
    count_segments [(CompactLogItem.clock ⟨314, 1⟩).1, (CompactLogItem.clock ⟨314, 1⟩).2,
      (CompactLogItem.clock ⟨314, 2⟩).1, (CompactLogItem.clock ⟨314, 2⟩).2,
      (CompactLogItem.clock ⟨99, 2⟩).1, (CompactLogItem.clock ⟨99, 2⟩).2] 314 = some 2 ∧
    split_next_segment [(CompactLogItem.clock ⟨314, 1⟩).1, (CompactLogItem.clock ⟨314, 1⟩).2,
      (CompactLogItem.clock ⟨314, 2⟩).1, (CompactLogItem.clock ⟨314, 2⟩).2] 314 =
      some ⟨[(CompactLogItem.clock ⟨314, 1⟩).1, (CompactLogItem.clock ⟨314, 1⟩).2], [],
        [(CompactLogItem.clock ⟨314, 2⟩).1, (CompactLogItem.clock ⟨314, 2⟩).2]⟩ := by
  refine ⟨by decide, by decide, by decide, by decide⟩

end Ekotrace

namespace ModalityProbe

theorem probeId_new_isSome_iff (v : Nat) :
    (ProbeId.new v).isSome ↔ 0 < v ∧ v ≤ 2 ^ 31 - 1 := by
  unfold ProbeId.new
  split
  · simp; omega
  · split <;> simp <;> omega

theorem probeId_new_eq_self {v : Nat} (h : (ProbeId.new v).isSome) :
    ProbeId.new v = some v := by
  unfold ProbeId.new at h ⊢
  split at h
  · exact absurd h (by simp)
  · split at h
    · exact absurd h (by simp)
    · rename_i h1 h2
      rw [if_neg h1, if_neg h2]

theorem probeId_new_none {v : Nat} (h : v = 0 ∨ 2 ^ 31 ≤ v) : ProbeId.new v = none := by
  unfold ProbeId.new
  rcases h with h | h
  · subst h
    rfl
  · rw [if_pos (by omega)]

theorem read_u32_le_bytes {v : Nat} (h : v < 2 ^ 32) :
    Wire.read_u32 (Wire.u32_le_bytes v) = v := by
  show v % 256 + 256 * (v / 256 % 256) + 65536 * (v / 65536 % 256) +
    16777216 * (v / 16777216 % 256) = v
  omega

theorem read_u16_le_bytes {v : Nat} (h : v < 2 ^ 16) :
    Wire.read_u16 (Wire.u16_le_bytes v) = v := by
  show v % 256 + 256 * (v / 256 % 256) = v
  omega

/-- Claim C3 counterexample: on the 11-byte buffer of 0xFF bytes (shorter than
the required 12), the reserved_1 accessor panics on out-of-range indexing
(modelled `none`) instead of returning MissingBytes, and the probe_id accessor
returns InvalidProbeId(0xFFFFFFFF) — a non-MissingBytes result — because no
accessor performs a length check. -/
theorem C3_missing_bytes_counterexample :
    Wire.reserved_1 (List.replicate 11 255) = none ∧
    Wire.probe_id (List.replicate 11 255) =
      some (Except.error (CausalSnapshotWireError.InvalidProbeId 4294967295)) := by
  refine ⟨by decide, by rfl⟩

/-- Claim C3 (amended): a buffer shorter than 12 bytes fails the length check
— check_len, and hence the checked constructor new — with MissingBytes; the
read accessors perform no length check of their own, and on every undersized
buffer the reserved_1 accessor panics (modelled `none`) rather than returning
MissingBytes. -/
theorem C3_missing_bytes_amended (buffer : List Nat) (h : buffer.length < 12) :
    Wire.check_len buffer = Except.error CausalSnapshotWireError.MissingBytes ∧
    Wire.new buffer = Except.error CausalSnapshotWireError.MissingBytes ∧
    Wire.reserved_1 buffer = none := by
  have hc : Wire.check_len buffer = Except.error CausalSnapshotWireError.MissingBytes := by
    unfold Wire.check_len Wire.BUFFER_LEN
    rw [if_pos h]
  refine ⟨hc, ?_, ?_⟩
  · unfold Wire.new
    rw [hc]
  · unfold Wire.reserved_1 Wire.sliceRange
    rw [if_neg (by omega)]
    rfl

/-- Claim C3 witness: the amended behaviour evaluated on a 5-byte buffer. -/
theorem C3_missing_bytes_amended_witness :
    Wire.check_len (List.replicate 5 0) = Except.error CausalSnapshotWireError.MissingBytes ∧
    Wire.new (List.replicate 5 0) = Except.error CausalSnapshotWireError.MissingBytes ∧
    Wire.reserved_1 (List.replicate 5 0) = none :=
  C3_missing_bytes_amended (List.replicate 5 0) (by decide)

/-- Claim C5: whenever merge reports an error (ExceededAvailableClocks,
InsufficientSourceSize or ExternalHistorySemantics), the clock table after
the call is exactly the table before the call — no portion of the incoming
snapshot is applied. -/
theorem C5_merge_all_or_nothing (capacity : Nat) (table : List Ekotrace.LogicalClock)
    (snap : Merge.Snapshot) (t2 : List Ekotrace.LogicalClock) (e : MergeError)
    (h : Merge.merge capacity table snap = (t2, some e)) : t2 = table := by
  unfold Merge.merge at h
  split at h
  · injection h with h1 h2
    exact h1.symm
  · split at h
    · injection h with h1 h2
      exact h1.symm
    · split at h
      · injection h with h1 h2
        exact absurd h2 (by simp)
      · injection h with h1 h2
        exact h1.symm

/-- Claim C5 witness: a merge into a full one-slot table fails with
ExceededAvailableClocks and leaves the table unchanged. -/
theorem C5_merge_all_or_nothing_witness :
    Merge.merge 1 [⟨2, 9⟩] ⟨[⟨1, 5⟩], 1⟩ =
      ([⟨2, 9⟩], some MergeError.ExceededAvailableClocks) ∧
    ([⟨2, 9⟩] : List Ekotrace.LogicalClock) = [⟨2, 9⟩] :=
  ⟨by decide, C5_merge_all_or_nothing 1 [⟨2, 9⟩] ⟨[⟨1, 5⟩], 1⟩ [⟨2, 9⟩]
    MergeError.ExceededAvailableClocks (by decide)⟩

end ModalityProbe

namespace ModalityProbe

/-- Claim C7: writing (probe_id, count, reserved_0, reserved_1) through the
setters of a 12-byte buffer lays the fields out little-endian as
probe_id:u32 | count:u32 | reserved_0:u16 | reserved_1:u16, and reading back
through the accessors recovers the identical values; and a stored probe_id of
0 or with its top bit set fails probe_id() with InvalidProbeId carrying the
raw value. -/
theorem C7_wire_roundtrip :
    (∀ (pid cnt r0 r1 : Nat) (buffer : List Nat),
      buffer.length = 12 → (ProbeId.new pid).isSome →
      cnt < 2 ^ 32 → r0 < 2 ^ 16 → r1 < 2 ^ 16 →
      ∃ b1 b2 b3 b4,
        Wire.set_probe_id buffer pid = some b1 ∧
        Wire.set_count b1 cnt = some b2 ∧
        Wire.set_reserved_0 b2 r0 = some b3 ∧
        Wire.set_reserved_1 b3 r1 = some b4 ∧
        b4 = Wire.u32_le_bytes pid ++ Wire.u32_le_bytes cnt ++
          Wire.u16_le_bytes r0 ++ Wire.u16_le_bytes r1 ∧
        Wire.probe_id b4 = some (Except.ok pid) ∧
        Wire.count b4 = some cnt ∧
        Wire.reserved_0 b4 = some r0 ∧
        Wire.reserved_1 b4 = some r1) ∧
    (∀ buffer : List Nat, 12 ≤ buffer.length →
      (Wire.read_u32 (buffer.take 4) = 0 ∨ 2 ^ 31 ≤ Wire.read_u32 (buffer.take 4)) →
      Wire.probe_id buffer =
        some (Except.error (CausalSnapshotWireError.InvalidProbeId
          (Wire.read_u32 (buffer.take 4))))) := by
  constructor
  · intro pid cnt r0 r1 buffer hb hpid hc h0 h1
    have hpid31 : pid ≤ 2 ^ 31 - 1 := ((probeId_new_isSome_iff pid).mp hpid).2
    have hP : (Wire.u32_le_bytes pid).length = 4 := rfl
    have hC : (Wire.u32_le_bytes cnt).length = 4 := rfl
    have hR0 : (Wire.u16_le_bytes r0).length = 2 := rfl
    have hR1 : (Wire.u16_le_bytes r1).length = 2 := rfl
    have hPC : (Wire.u32_le_bytes pid ++ Wire.u32_le_bytes cnt).length = 8 := by
      simp [hP, hC]
    have hPCR : (Wire.u32_le_bytes pid ++ Wire.u32_le_bytes cnt ++
        Wire.u16_le_bytes r0).length = 10 := by
      simp [hP, hC, hR0]
    refine ⟨Wire.u32_le_bytes pid ++ buffer.drop 4,
      Wire.u32_le_bytes pid ++ Wire.u32_le_bytes cnt ++ buffer.drop 8,
      Wire.u32_le_bytes pid ++ Wire.u32_le_bytes cnt ++ Wire.u16_le_bytes r0 ++
        buffer.drop 10,
      Wire.u32_le_bytes pid ++ Wire.u32_le_bytes cnt ++ Wire.u16_le_bytes r0 ++
        Wire.u16_le_bytes r1, ?_, ?_, ?_, ?_, rfl, ?_, ?_, ?_, ?_⟩
    · unfold Wire.set_probe_id Wire.writeRange
      rw [if_pos (by simp [hP, hb])]
      simp [hP]
    · unfold Wire.set_count Wire.writeRange
      rw [if_pos (by simp [hC, hP, hb])]
      rw [List.take_left' hP, hC]
      have hd : (Wire.u32_le_bytes pid ++ buffer.drop 4).drop (4 + 4) = buffer.drop 8 := by
        rw [show (4 + 4 : Nat) = (Wire.u32_le_bytes pid).length + 4 by rw [hP],
          List.drop_append, List.drop_drop]
      rw [hd]
    · unfold Wire.set_reserved_0 Wire.writeRange
      rw [if_pos (by simp [hR0, hP, hC, hb])]
      rw [List.take_left' hPC, hR0]
      have hd : (Wire.u32_le_bytes pid ++ Wire.u32_le_bytes cnt ++ buffer.drop 8).drop
          (8 + 2) = buffer.drop 10 := by
        rw [show (8 + 2 : Nat) =
            (Wire.u32_le_bytes pid ++ Wire.u32_le_bytes cnt).length + 2 by rw [hPC],
          List.drop_append, List.drop_drop]
      rw [hd]
    · unfold Wire.set_reserved_1 Wire.writeRange
      rw [if_pos (by simp [hR1, hP, hC, hR0, hb])]
      rw [List.take_left' hPCR, hR1]
      have hd : (Wire.u32_le_bytes pid ++ Wire.u32_le_bytes cnt ++ Wire.u16_le_bytes r0 ++
          buffer.drop 10).drop (10 + 2) = [] := by
        apply List.drop_eq_nil_of_le
        simp [hP, hC, hR0, hb]
      rw [hd, List.append_nil]
    · unfold Wire.probe_id Wire.sliceRange
      rw [if_pos (by simp [hP, hC, hR0, hR1])]
      simp only [Nat.sub_zero, List.drop_zero, Option.map_some']
      rw [List.append_assoc, List.append_assoc, List.take_left' hP]
      rw [read_u32_le_bytes (by omega), probeId_new_eq_self hpid]
    · unfold Wire.count Wire.sliceRange
      rw [if_pos (by simp [hP, hC, hR0, hR1])]
      rw [show ((8 : Nat) - 4) = 4 from rfl]
      rw [List.append_assoc, List.append_assoc]
      rw [List.drop_left' hP, List.take_left' hC]
      simp [read_u32_le_bytes hc]
    · unfold Wire.reserved_0 Wire.sliceRange
      rw [if_pos (by simp [hP, hC, hR0, hR1])]
      rw [show ((10 : Nat) - 8) = 2 from rfl]
      rw [List.append_assoc]
      rw [List.drop_left' hPC, List.take_left' hR0]
      simp [read_u16_le_bytes h0]
    · unfold Wire.reserved_1 Wire.sliceRange
      rw [if_pos (by simp [hP, hC, hR0, hR1])]
      rw [show ((12 : Nat) - 10) = 2 from rfl]
      rw [List.drop_left' hPCR]
      rw [List.take_of_length_le (le_of_eq hR1)]
      simp [read_u16_le_bytes h1]
  · intro buffer hlen hraw
    unfold Wire.probe_id Wire.sliceRange
    rw [if_pos (by omega)]
    simp only [Nat.sub_zero, List.drop_zero, Option.map_some']
    rw [probeId_new_none hraw]

/-- Claim C7 witness: the roundtrip evaluated at (probe_id 1, count 2,
reserved_0 3, reserved_1 4) over an all-0xFF 12-byte buffer, and the
InvalidProbeId failure evaluated on an all-0xFF buffer (stored probe id
0xFFFFFFFF has its top bit set). -/
theorem C7_wire_roundtrip_witness :
    (∃ b1 b2 b3 b4,
      Wire.set_probe_id (List.replicate 12 255) 1 = some b1 ∧
      Wire.set_count b1 2 = some b2 ∧
      Wire.set_reserved_0 b2 3 = some b3 ∧
      Wire.set_reserved_1 b3 4 = some b4 ∧
      b4 = Wire.u32_le_bytes 1 ++ Wire.u32_le_bytes 2 ++
        Wire.u16_le_bytes 3 ++ Wire.u16_le_bytes 4 ∧
      Wire.probe_id b4 = some (Except.ok 1) ∧
      Wire.count b4 = some 2 ∧
      Wire.reserved_0 b4 = some 3 ∧
      Wire.reserved_1 b4 = some 4) ∧
    Wire.probe_id (List.replicate 12 255) =
      some (Except.error (CausalSnapshotWireError.InvalidProbeId
        (Wire.read_u32 ((List.replicate 12 255).take 4)))) :=
  ⟨C7_wire_roundtrip.1 1 2 3 4 (List.replicate 12 255) (by decide) (by decide)
      (by decide) (by decide) (by decide),
    C7_wire_roundtrip.2 (List.replicate 12 255) (by decide) (by decide)⟩

end ModalityProbe
